import Mathlib

/-!
Verification development for the MMTP protocol implementation
(protocol engine, server mailbox handlers, client response correlator).

Machine words are modelled as `Nat` with explicit reduction `% 2^32`;
byte strings as `List Nat`; JavaScript objects (mailboxes, tag maps,
tag filters) as association lists in insertion order.
-/

set_option maxRecDepth 400000

namespace MMTP

/-! ## SHA-256 (bytes modelled as `Nat`, words reduced mod 2^32) -/

def wordMod : Nat := 4294967296

def rotr (n x : Nat) : Nat := ((x >>> n) ||| (x <<< (32 - n))) % wordMod

def smallSigma0 (x : Nat) : Nat := (rotr 7 x) ^^^ (rotr 18 x) ^^^ (x >>> 3)

def smallSigma1 (x : Nat) : Nat := (rotr 17 x) ^^^ (rotr 19 x) ^^^ (x >>> 10)

def bigSigma0 (x : Nat) : Nat := (rotr 2 x) ^^^ (rotr 13 x) ^^^ (rotr 22 x)

def bigSigma1 (x : Nat) : Nat := (rotr 6 x) ^^^ (rotr 11 x) ^^^ (rotr 25 x)

def sha256K : List Nat :=
  [1116352408, 1899447441, 3049323471, 3921009573, 961987163,
   1508970993, 2453635748, 2870763221, 3624381080, 310598401,
   607225278, 1426881987, 1925078388, 2162078206, 2614888103,
   3248222580, 3835390401, 4022224774, 264347078, 604807628,
   770255983, 1249150122, 1555081692, 1996064986, 2554220882,
   2821834349, 2952996808, 3210313671, 3336571891, 3584528711,
   113926993, 338241895, 666307205, 773529912, 1294757372,
   1396182291, 1695183700, 1986661051, 2177026350, 2456956037,
   2730485921, 2820302411, 3259730800, 3345764771, 3516065817,
   3600352804, 4094571909, 275423344, 430227734, 506948616,
   659060556, 883997877, 958139571, 1322822218, 1537002063,
   1747873779, 1955562222, 2024104815, 2227730452, 2361852424,
   2428436474, 2756734187, 3204031479, 3329325298]

def sha256H0 : List Nat :=
  [1779033703, 3144134277, 1013904242, 2773480762, 1359893119,
   2600822924, 528734635, 1541459225]

/-- Extend the 16 block words to the 64-word message schedule.
The accumulator holds the words produced so far, most recent first. -/
def extendSchedule : Nat → List Nat → List Nat
  | 0, acc => acc
  | n + 1, acc =>
    let nw := (smallSigma1 (acc.getD 1 0) + acc.getD 6 0 +
               smallSigma0 (acc.getD 14 0) + acc.getD 15 0) % wordMod
    extendSchedule n (nw :: acc)

def messageSchedule (block : List Nat) : List Nat :=
  (extendSchedule 48 block.reverse).reverse

/-- One SHA-256 compression round; the state is the list [a,b,c,d,e,f,g,h]. -/
def sha256Round (s : List Nat) (k w : Nat) : List Nat :=
  let a := s.getD 0 0
  let b := s.getD 1 0
  let c := s.getD 2 0
  let d := s.getD 3 0
  let e := s.getD 4 0
  let f := s.getD 5 0
  let g := s.getD 6 0
  let h := s.getD 7 0
  let ch := (e &&& f) ^^^ ((e ^^^ 4294967295) &&& g)
  let temp1 := (h + bigSigma1 e + ch + k + w) % wordMod
  let maj := (a &&& b) ^^^ (a &&& c) ^^^ (b &&& c)
  let temp2 := (bigSigma0 a + maj) % wordMod
  [(temp1 + temp2) % wordMod, a, b, c, (d + temp1) % wordMod, e, f, g]

def compressBlock (h : List Nat) (block : List Nat) : List Nat :=
  let ws := messageSchedule block
  let final := (ws.zip sha256K).foldl (fun s p => sha256Round s p.2 p.1) h
  (h.zip final).map (fun p => (p.1 + p.2) % wordMod)

def beBytes8 (n : Nat) : List Nat :=
  [(n >>> 56) % 256, (n >>> 48) % 256, (n >>> 40) % 256, (n >>> 32) % 256,
   (n >>> 24) % 256, (n >>> 16) % 256, (n >>> 8) % 256, n % 256]

def padMessage (msg : List Nat) : List Nat :=
  let len := msg.length
  let padZeros := (119 - len % 64) % 64
  msg ++ [128] ++ List.replicate padZeros 0 ++ beBytes8 (len * 8)

def bytesToWords : List Nat → List Nat
  | b0 :: b1 :: b2 :: b3 :: rest =>
    (b0 * 16777216 + b1 * 65536 + b2 * 256 + b3) :: bytesToWords rest
  | _ => []

def wordsToBlocks : List Nat → List (List Nat)
  | w0 :: w1 :: w2 :: w3 :: w4 :: w5 :: w6 :: w7 ::
    w8 :: w9 :: w10 :: w11 :: w12 :: w13 :: w14 :: w15 :: rest =>
    [w0, w1, w2, w3, w4, w5, w6, w7, w8, w9, w10, w11, w12, w13, w14, w15]
      :: wordsToBlocks rest
  | _ => []

def wordBytesBE (w : Nat) : List Nat :=
  [(w >>> 24) % 256, (w >>> 16) % 256, (w >>> 8) % 256, w % 256]

/-- SHA-256 digest of a byte list, as the list of 32 digest bytes. -/
def sha256Bytes (msg : List Nat) : List Nat :=
  let blocks := wordsToBlocks (bytesToWords (padMessage msg))
  let h := blocks.foldl compressBlock sha256H0
  h.foldr (fun w acc => wordBytesBE w ++ acc) []

def hexDigitChar (n : Nat) : Char :=
  if n < 10 then Char.ofNat (48 + n) else Char.ofNat (87 + n)

def bytesToHexString (bs : List Nat) : String :=
  String.mk (bs.foldr (fun b acc => hexDigitChar (b / 16) :: hexDigitChar (b % 16) :: acc) [])

/-- UTF-8 bytes of a string; the protocol only hashes ASCII data, for which
the code point equals the byte. -/
def strBytes (s : String) : List Nat := s.data.map Char.toNat

/-- `generateSHA256(data)`: hex digest of the SHA-256 of a string,
as in the source: crypto.createHash applied to sha256, updated with the
data, digested as hex. -/
def generateSHA256 (data : String) : String := bytesToHexString (sha256Bytes (strBytes data))

/-! ## Address validation -/

def isLocalChar (c : Char) : Bool :=
  (('a' ≤ c && c ≤ 'z') || ('A' ≤ c && c ≤ 'Z') || ('0' ≤ c && c ≤ '9')
   || c == '.' || c == '_' || c == '-')

def isDomainChar (c : Char) : Bool :=
  (('a' ≤ c && c ≤ 'z') || ('A' ≤ c && c ≤ 'Z') || ('0' ≤ c && c ≤ '9')
   || c == '.' || c == '-')

/-- `validateEmailFormat(email)`: the anchored regex match for
(local)%(domain).  Since the character classes exclude the structural
characters, the greedy left-to-right scan below is equivalent to the regex. -/
def validateEmailFormat (email : String) : Bool :=
  match email.data with
  | '(' :: rest =>
    let p := rest.span isLocalChar
    match p.2 with
    | ')' :: '%' :: '(' :: rest2 =>
      let q := rest2.span isDomainChar
      (!p.1.isEmpty) && (!q.1.isEmpty) &&
        (match q.2 with
         | [')'] => true
         | _ => false)
    | _ => false
  | _ => false

/-! ## HashCash -/

structure HashCashToken where
  token : String
  counter : Nat
  deriving DecidableEq, Repr

/-- The exact token string hashed by `generateHashCash`; the JavaScript
template embeds the resource segment sender:recipient:timestamp once, so
the (decimal) timestamp appears twice. -/
def hashcashTokenString (difficulty : Nat) (sender recipient : String)
    (timestamp counter : Nat) : String :=
  let resource := sender ++ ":" ++ recipient ++ ":" ++ Nat.repr timestamp
  Nat.repr 1 ++ ":" ++ Nat.repr difficulty ++ ":" ++ Nat.repr timestamp ++ ":" ++
    resource ++ "::" ++ Nat.repr counter ++ ":"

/-- The startsWith check of the source: difficulty leading zero characters
in the SHA-256 hex digest of the token string. -/
def hashMeetsDifficulty (difficulty : Nat) (token : String) : Bool :=
  (List.replicate difficulty '0').isPrefixOf (generateSHA256 token).data

/-- The while(true) search of `generateHashCash`, made total with explicit
fuel: `none` models the source loop not having returned yet. -/
def generateHashCashAux (difficulty : Nat) (sender recipient : String)
    (timestamp : Nat) : Nat → Nat → Option HashCashToken
  | 0, _ => none
  | fuel + 1, counter =>
    let token := hashcashTokenString difficulty sender recipient timestamp counter
    if hashMeetsDifficulty difficulty token then
      some { token := token, counter := counter }
    else
      generateHashCashAux difficulty sender recipient timestamp fuel (counter + 1)

/-! ## Packets -/

structure PacketMeta where
  type : String
  messageId : String
  timestamp : Nat
  hashcashToken : HashCashToken
  encrypted : Bool
  signed : Bool
  tags : List (String × List String)
  deriving DecidableEq, Repr

/-- `packet.content` is either plaintext {subject, body} or, after
encryption replaced it wholesale, {encrypted: ciphertext}. -/
inductive Content where
  | plain (subject body : String)
  | enc (ciphertext : String)
  deriving DecidableEq, Repr

structure Verification where
  messageHash : String
  deriving DecidableEq, Repr

structure Packet where
  meta : PacketMeta
  sender : String
  recipient : String
  content : Content
  verification : Verification
  deriving DecidableEq, Repr

/-! ## JSON serialization of packet content (JSON.stringify) -/

def jsonEscapeChar (c : Char) : List Char :=
  if c = '"' then ['\\', '"']
  else if c = '\\' then ['\\', '\\']
  else if c = '\x08' then ['\\', 'b']
  else if c = '\x09' then ['\\', 't']
  else if c = '\x0a' then ['\\', 'n']
  else if c = '\x0c' then ['\\', 'f']
  else if c = '\x0d' then ['\\', 'r']
  else if c.toNat < 32 then
    ['\\', 'u', '0', '0', hexDigitChar (c.toNat / 16), hexDigitChar (c.toNat % 16)]
  else [c]

def jsonStringLit (s : String) : String :=
  "\"" ++ String.mk (s.data.foldr (fun c acc => jsonEscapeChar c ++ acc) []) ++ "\""

/-- JSON.stringify of the content object, fields in insertion order
(subject then body for plaintext, the single encrypted field otherwise). -/
def jsonStringifyContent : Content → String
  | .plain subject body =>
    "\x7b\"subject\":" ++ jsonStringLit subject ++ ",\"body\":" ++ jsonStringLit body ++ "\x7d"
  | .enc ciphertext =>
    "\x7b\"encrypted\":" ++ jsonStringLit ciphertext ++ "\x7d"

/-! ## Integrity and HashCash verification -/

/-- `verifyMessageIntegrity(packet)`: unconditionally true when
meta.encrypted, else compares the recomputed content hash with the stored
one. -/
def verifyMessageIntegrity (packet : Packet) : Bool :=
  if packet.meta.encrypted then
    true
  else
    let calculatedHash := generateSHA256 (jsonStringifyContent packet.content)
    calculatedHash == packet.verification.messageHash

/-- `verifyHashCash(packet)`: re-hashes the stored token string and checks
the leading zeros; the destructured counter is unused in the source. -/
def verifyHashCash (difficulty : Nat) (packet : Packet) : Bool :=
  let hash := generateSHA256 packet.meta.hashcashToken.token
  (List.replicate difficulty '0').isPrefixOf hash.data

/-! ## Tags -/

/-- Association-list lookup with JavaScript object semantics: keys are
unique, first binding wins. -/
def assocLookup {α : Type} (l : List (String × α)) (key : String) : Option α :=
  match l with
  | [] => none
  | (k, v) :: rest => if k == key then some v else assocLookup rest key

/-- The tag taxonomy of the constructor (closed vocabularies plus open custom). -/
def tagCategories : List (String × List String) :=
  [("priority", ["high", "medium", "low"]),
   ("category", ["personal", "work", "finance", "social", "promotion", "coupon",
                 "shop", "notification"]),
   ("status", ["urgent", "important", "information", "action_required"]),
   ("custom", [])]

/-- The tags option is either an array (becomes the custom category) or an
object mapping categories to tag lists. -/
inductive TagsInput where
  | arr (tags : List String)
  | obj (tags : List (String × List String))
  deriving DecidableEq, Repr

/-- `processTags(tags)`: empty input gives an empty mapping; an array
becomes the custom category verbatim; for an object, values of known
non-custom categories are filtered to the vocabulary, custom passes
through, unknown categories are dropped. -/
def processTags : TagsInput → List (String × List String)
  | .arr tags => if tags.isEmpty then [] else [("custom", tags)]
  | .obj tags =>
    if tags.isEmpty then []
    else
      tags.foldl (fun processedTags p =>
        let category := p.1
        let tagList := p.2
        match assocLookup tagCategories category with
        | none => processedTags
        | some vocab =>
          if category != "custom" then
            processedTags ++ [(category, tagList.filter (fun tag => vocab.contains tag))]
          else
            processedTags ++ [(category, tagList)]) []

/-- The filter callback of `filterMessagesByTags`, with the early returns
of the source: messages without tags never match; a category whose filter
list is non-empty but whose message tags are absent fails; otherwise some
filter tag must occur among the tags of the message for that category. -/
def messageMatchesFilters (tagFilters : List (String × List String))
    (message : Packet) : Bool :=
  if message.meta.tags.isEmpty then false
  else
    tagFilters.all (fun p =>
      let filterTags := p.2
      let messageTags := (assocLookup message.meta.tags p.1).getD []
      if filterTags.length > 0 && messageTags.length == 0 then false
      else filterTags.any (fun tag => messageTags.contains tag))

/-- `filterMessagesByTags(messages, tagFilters)`: an empty (or absent)
filter mapping returns the messages unchanged. -/
def filterMessagesByTags (messages : List Packet)
    (tagFilters : List (String × List String)) : List Packet :=
  if tagFilters.isEmpty then messages
  else messages.filter (messageMatchesFilters tagFilters)

/-! ## Packet construction and processing

The PGP branches of the source are guarded by `this.usePGP`, which defaults
to false on both the server and the protocol engine; the embedding models
that configuration, in which signing, encryption, decryption and signature
verification are skipped. -/

/-- `createMessagePacket(from, to, subject, body, type, options)` without
PGP.  The ambient timestamp (Date.now()) and random messageId are explicit
arguments; `none` models the thrown format error and hashcash-search fuel
exhaustion. -/
def createMessagePacket (difficulty fuel : Nat) (sender recipient subject body : String)
    (type : String) (optTags : TagsInput) (timestamp : Nat) (messageId : String) :
    Option Packet :=
  if !(validateEmailFormat sender) || !(validateEmailFormat recipient) then none
  else
    let messageContent := Content.plain subject body
    let messageHash := generateSHA256 (jsonStringifyContent messageContent)
    match generateHashCashAux difficulty sender recipient timestamp fuel 0 with
    | none => none
    | some hashcashToken =>
      some {
        meta := {
          type := type
          messageId := messageId
          timestamp := timestamp
          hashcashToken := hashcashToken
          encrypted := false
          signed := false
          tags := processTags optTags
        }
        sender := sender
        recipient := recipient
        content := messageContent
        verification := { messageHash := messageHash }
      }

inductive ProcessResult where
  | failure (error : String)
  | success (packet : Packet)
  deriving DecidableEq, Repr

/-- `processPacket(packet)` without PGP: integrity check first, HashCash
check second, each short-circuiting with its tagged error. -/
def processPacket (difficulty : Nat) (packet : Packet) : ProcessResult :=
  if !(verifyMessageIntegrity packet) then
    .failure "Message integrity check failed"
  else if !(verifyHashCash difficulty packet) then
    .failure "HashCash verification failed - potential spam"
  else
    .success packet

/-! ## Server mailbox handlers

`this.mailboxes` is a JavaScript object keyed by recipient address,
modelled as an association list in insertion order; deleting a key removes
its binding, distinguishing an absent mailbox from a present empty one. -/

abbrev Mailboxes : Type := List (String × List Packet)

def mboxLookup (m : Mailboxes) (email : String) : Option (List Packet) :=
  assocLookup m email

/-- Object property assignment: update the existing binding in place, or
append a new one. -/
def mboxSet (m : Mailboxes) (email : String) (msgs : List Packet) : Mailboxes :=
  match m with
  | [] => [(email, msgs)]
  | (k, v) :: rest =>
    if k == email then (k, msgs) :: rest else (k, v) :: mboxSet rest email msgs

/-- delete this.mailboxes[email]: removes the binding for the key.  Object
keys are unique, so removing every binding for the key is the same
operation. -/
def mboxDelete (m : Mailboxes) (email : String) : Mailboxes :=
  m.filter (fun p => !(p.1 == email))

abbrev TagCounts : Type := List (String × List (String × Nat))

def bumpTag (counts : TagCounts) (category tag : String) : TagCounts :=
  let catCounts := (assocLookup counts category).getD []
  let n := (assocLookup catCounts tag).getD 0
  let newCat :=
    if (assocLookup catCounts tag).isSome then
      catCounts.map (fun p => if p.1 == tag then (p.1, n + 1) else p)
    else catCounts ++ [(tag, 1)]
  if (assocLookup counts category).isSome then
    counts.map (fun p => if p.1 == category then (p.1, newCat) else p)
  else counts ++ [(category, newCat)]

/-- `countMessagesByTags(messages)`: per-category/tag histogram. -/
def countMessagesByTags (messages : List Packet) : TagCounts :=
  messages.foldl (fun counts message =>
    if message.meta.tags.isEmpty then counts
    else
      message.meta.tags.foldl (fun cs p =>
        p.2.foldl (fun cs2 tag => bumpTag cs2 p.1 tag) cs) counts) []

inductive ServerResponse where
  | errorResp (message : String)
  | sendOk (messageId : String) (encrypted signed : Bool)
  | receiveOk (messages : List Packet) (count : Nat)
  | receiveFilteredOk (messages : List Packet) (count : Nat)
      (tagFilters : Option (List (String × List String)))
  | checkOk (count totalCount : Nat) (tagCounts : TagCounts)
  deriving DecidableEq, Repr

/-- `handleSendMail(data, socket)` without PGP: on processPacket failure
respond with the error and leave every mailbox unchanged; on success append
the packet to the mailbox of the recipient (creating it if absent). -/
def handleSendMail (difficulty : Nat) (m : Mailboxes) (packet : Packet) :
    Mailboxes × ServerResponse :=
  match processPacket difficulty packet with
  | .failure e => (m, .errorResp e)
  | .success p =>
    let existing := (mboxLookup m p.recipient).getD []
    (mboxSet m p.recipient (existing ++ [p]),
     .sendOk p.meta.messageId p.meta.encrypted p.meta.signed)

/-- `handleReceiveMail(data, socket)` without PGP (the opportunistic
decryption loop is guarded by usePGP): full drain of the mailbox. -/
def handleReceiveMail (m : Mailboxes) (email : String) :
    Mailboxes × ServerResponse :=
  if !(validateEmailFormat email) then
    (m, .errorResp "Invalid email format")
  else
    match mboxLookup m email with
    | none => (m, .receiveOk [] 0)
    | some msgs =>
      if msgs.length == 0 then (m, .receiveOk [] 0)
      else (mboxDelete m email, .receiveOk msgs msgs.length)

/-- `handleReceiveFilteredMail(data, socket)` without PGP.  `tagFilters` is
`none` when the request omits the field; the non-empty-filter branch
removes exactly the matching messages, the other branch deletes the whole
mailbox entry. -/
def handleReceiveFilteredMail (m : Mailboxes) (email : String)
    (tagFilters : Option (List (String × List String))) :
    Mailboxes × ServerResponse :=
  if !(validateEmailFormat email) then
    (m, .errorResp "Invalid email format")
  else
    match mboxLookup m email with
    | none => (m, .receiveFilteredOk [] 0 tagFilters)
    | some msgs =>
      if msgs.length == 0 then (m, .receiveFilteredOk [] 0 tagFilters)
      else
        match tagFilters with
        | some fs =>
          if fs.isEmpty then
            (mboxDelete m email, .receiveFilteredOk msgs msgs.length tagFilters)
          else
            let filteredMessages := filterMessagesByTags msgs fs
            let remaining := msgs.filter (fun message =>
              !(filteredMessages.any (fun mm => mm.meta.messageId == message.meta.messageId)))
            (mboxSet m email remaining,
             .receiveFilteredOk filteredMessages filteredMessages.length tagFilters)
        | none =>
          (mboxDelete m email, .receiveFilteredOk msgs msgs.length tagFilters)

/-- `handleCheckMail(data, socket)`: read-only; raw count, histogram, and a
filtered count when non-empty filters are supplied. -/
def handleCheckMail (m : Mailboxes) (email : String)
    (tagFilters : Option (List (String × List String))) :
    Mailboxes × ServerResponse :=
  if !(validateEmailFormat email) then
    (m, .errorResp "Invalid email format")
  else
    let messages := (mboxLookup m email).getD []
    let counted :=
      if messages.length > 0 then
        (match tagFilters with
         | some fs =>
           if fs.isEmpty then messages.length
           else (filterMessagesByTags messages fs).length
         | none => messages.length,
         countMessagesByTags messages)
      else (messages.length, ([] : TagCounts))
    (m, .checkOk counted.1 messages.length counted.2)

/-! ## Client response correlation

`this.waitingResponses` is a JavaScript Map keyed by action name; Map
iteration follows key insertion order, so the head of the model list is the
oldest tracked entry.  The timeout handle is modelled as a numeric id. -/

structure PendingEntry where
  action : String
  timeoutId : Nat
  deriving DecidableEq, Repr

/-- The fields of a server response frame the client handler inspects. -/
structure ClientResponse where
  status : String
  message : String
  publicKey : Option String
  messages : Option (List Packet)
  tagFilters : Option (List (String × List String))
  deriving DecidableEq, Repr

inductive SettleOutcome where
  | resolved (response : ClientResponse)
  | rejected (message : String)
  deriving DecidableEq, Repr

structure HandleResponseResult where
  settled : Option (PendingEntry × SettleOutcome)
  remaining : List PendingEntry
  clearedTimeouts : List Nat
  deriving DecidableEq, Repr

/-- JavaScript truthiness of an optional string-valued response field: an
absent field and the empty string are both falsy. -/
def strFieldTruthy (field : Option String) : Bool := !(field.getD "").isEmpty

/-- The outcome of `importPublicKey(email, publicKey)` as observed by the
response handler: the method first throws "PGP support is not enabled" when
usePGP is false (an in-repository check); otherwise the external
openpgp.readKey parse of the armored key delivered in the response payload
may fail, modelled by the readKeyError parameter (none when the key
parses).  The file write and cache update performed on success do not
affect how the tracker settles. -/
def importPublicKeyOutcome (usePGP : Bool) (readKeyError : Option String) :
    Except String Unit :=
  if !usePGP then .error "PGP support is not enabled"
  else
    match readKeyError with
    | some e => .error e
    | none => .ok ()

/-- `handleResponse(response)`: iterate the tracked entries, clear the
timeout of the first entry, delete it from the map, and reject on ERROR
status; otherwise resolve — except that the REQUEST_PUBLIC_KEY branch,
when the response carries a truthy publicKey, awaits importPublicKey and
its .catch rejects with the import error when that throws, resolving with
the response only on success, and the RECEIVE_FILTERED branch re-filters
the delivered messages when filters are echoed — then break: every other
entry is untouched. -/
def handleResponse (usePGP : Bool) (readKeyError : Option String)
    (waiting : List PendingEntry) (response : ClientResponse) :
    HandleResponseResult :=
  match waiting with
  | [] => { settled := none, remaining := [], clearedTimeouts := [] }
  | entry :: rest =>
    let outcome :=
      if response.status == "ERROR" then
        SettleOutcome.rejected response.message
      else if entry.action == "REQUEST_PUBLIC_KEY" && strFieldTruthy response.publicKey then
        match importPublicKeyOutcome usePGP readKeyError with
        | .ok _ => SettleOutcome.resolved response
        | .error e => SettleOutcome.rejected e
      else
        match entry.action == "RECEIVE_FILTERED", response.messages with
        | true, some msgs =>
          match response.tagFilters with
          | some fs =>
            SettleOutcome.resolved
              { response with messages := some (filterMessagesByTags msgs fs) }
          | none => SettleOutcome.resolved response
        | _, _ => SettleOutcome.resolved response
    { settled := some (entry, outcome)
      remaining := rest
      clearedTimeouts := [entry.timeoutId] }

/-! ## Helper lemmas -/

theorem generateHashCashAux_sound (d : Nat) (s r : String) (t : Nat) :
    ∀ (fuel counter : Nat) (tok : HashCashToken),
      generateHashCashAux d s r t fuel counter = some tok →
      tok.token = hashcashTokenString d s r t tok.counter ∧
      hashMeetsDifficulty d tok.token = true ∧
      counter ≤ tok.counter ∧
      ∀ c, counter ≤ c → c < tok.counter →
        hashMeetsDifficulty d (hashcashTokenString d s r t c) = false := by
  intro fuel
  induction fuel with
  | zero => intro counter tok h; simp [generateHashCashAux] at h
  | succ n ih =>
    intro counter tok h
    rw [generateHashCashAux] at h
    by_cases hh : hashMeetsDifficulty d (hashcashTokenString d s r t counter) = true
    · simp only [hh, if_true, Option.some.injEq] at h
      subst h
      refine ⟨rfl, hh, Nat.le_refl _, ?_⟩
      intro c hc1 hc2
      exact absurd (Nat.lt_of_le_of_lt hc1 hc2) (Nat.lt_irrefl _)
    · simp only [Bool.not_eq_true] at hh
      simp only [hh, Bool.false_eq_true, if_false] at h
      obtain ⟨h1, h2, h3, h4⟩ := ih (counter + 1) tok h
      refine ⟨h1, h2, Nat.le_of_succ_le h3, ?_⟩
      intro c hc1 hc2
      rcases Nat.eq_or_lt_of_le hc1 with he | hlt
      · rw [← he]; exact hh
      · exact h4 c hlt hc2

theorem generateHashCashAux_complete (d : Nat) (s r : String) (t : Nat) :
    ∀ (fuel counter k : Nat), counter ≤ k → k < counter + fuel →
      hashMeetsDifficulty d (hashcashTokenString d s r t k) = true →
      (generateHashCashAux d s r t fuel counter).isSome = true := by
  intro fuel
  induction fuel with
  | zero => intro counter k h1 h2 _; omega
  | succ n ih =>
    intro counter k h1 h2 h3
    rw [generateHashCashAux]
    by_cases hh : hashMeetsDifficulty d (hashcashTokenString d s r t counter) = true
    · simp [hh]
    · have hk : counter ≠ k := by rintro rfl; exact hh h3
      simp only [Bool.not_eq_true] at hh
      simp only [hh, Bool.false_eq_true, if_false]
      exact ih (counter + 1) k (by omega) (by omega) h3

theorem mboxLookup_mboxDelete (m : Mailboxes) (email : String) :
    mboxLookup (mboxDelete m email) email = none := by
  induction m with
  | nil => rfl
  | cons hd tl ih =>
    simp only [mboxDelete, List.filter] at *
    by_cases h : hd.1 == email
    · simp [h, ih]
    · simp only [h, Bool.not_false]
      simp only [mboxLookup, assocLookup] at *
      simp [h, ih]

/-! ## Claim theorems -/

/-- C1: for every sender, recipient, timestamp and difficulty, whenever the
brute-force search of generateHashCash returns (models the loop having
terminated), the returned token string is exactly
version:difficulty:timestamp:sender:recipient:timestamp::counter: with
version 1, its SHA-256 hex digest has at least difficulty leading zero
characters, and the counter is the smallest non-negative integer achieving
this; conversely if some counter succeeds the search does return. -/
theorem generateHashCash_correct (difficulty : Nat) (sender recipient : String)
    (timestamp : Nat) :
    (∀ fuel tok,
      generateHashCashAux difficulty sender recipient timestamp fuel 0 = some tok →
      tok.token = hashcashTokenString difficulty sender recipient timestamp tok.counter ∧
      hashMeetsDifficulty difficulty tok.token = true ∧
      ∀ c, c < tok.counter →
        hashMeetsDifficulty difficulty
          (hashcashTokenString difficulty sender recipient timestamp c) = false) ∧
    (∀ c, hashMeetsDifficulty difficulty
        (hashcashTokenString difficulty sender recipient timestamp c) = true →
      (generateHashCashAux difficulty sender recipient timestamp (c + 1) 0).isSome = true) := by
  constructor
  · intro fuel tok h
    obtain ⟨h1, h2, _, h4⟩ := generateHashCashAux_sound difficulty sender recipient timestamp fuel 0 tok h
    exact ⟨h1, h2, fun c hc => h4 c (Nat.zero_le c) hc⟩
  · intro c hc
    exact generateHashCashAux_complete difficulty sender recipient timestamp (c + 1) 0 c
      (Nat.zero_le c) (by omega) hc

/-- Witness for C1 at difficulty 1, sender (a)%(x.com), recipient
(b)%(x.com), timestamp 5: counter 3 succeeds and the search returns. -/
theorem generateHashCash_correct_witness :
    hashMeetsDifficulty 1 (hashcashTokenString 1 "(a)%(x.com)" "(b)%(x.com)" 5 3) = true ∧
    (generateHashCashAux 1 "(a)%(x.com)" "(b)%(x.com)" 5 4 0).isSome = true := by
  have h : hashMeetsDifficulty 1 (hashcashTokenString 1 "(a)%(x.com)" "(b)%(x.com)" 5 3) = true := by
    decide
  exact ⟨h, (generateHashCash_correct 1 "(a)%(x.com)" "(b)%(x.com)" 5).2 3 h⟩

/-- A packet whose stored token string was mined for sender (c)%(y.com),
recipient (d)%(z.org), timestamp 7, but whose own sender, recipient and
timestamp fields differ and whose stored counter field is arbitrary. -/
def mismatchedTokenPacket : Packet :=
  { meta := {
      type := "SEND"
      messageId := "id1"
      timestamp := 5
      hashcashToken := { token := "1:1:7:(c)%(y.com):(d)%(z.org):7::6:", counter := 999 }
      encrypted := false
      signed := false
      tags := [] }
    sender := "(a)%(x.com)"
    recipient := "(b)%(x.com)"
    content := .plain "Hi" "Yo"
    verification := { messageHash := "" } }

/-- C2: verifyHashCash depends only on the stored token string — it equals
the leading-zero check of the SHA-256 hex digest of that string, so two
packets with the same token string always verify alike, and a concrete
packet whose token was mined for different resource fields (with an
arbitrary stored counter) still passes at difficulty 1. -/
theorem verifyHashCash_token_only :
    (∀ (difficulty : Nat) (p : Packet),
      verifyHashCash difficulty p =
        (List.replicate difficulty '0').isPrefixOf
          (generateSHA256 p.meta.hashcashToken.token).data) ∧
    (∀ (difficulty : Nat) (p q : Packet),
      p.meta.hashcashToken.token = q.meta.hashcashToken.token →
      verifyHashCash difficulty p = verifyHashCash difficulty q) ∧
    verifyHashCash 1 mismatchedTokenPacket = true := by
  refine ⟨fun difficulty p => rfl, fun difficulty p q h => ?_, by decide⟩
  simp only [verifyHashCash, h]

/-- Witness for the congruence hypothesis of C2: the mismatched packet and a
copy with a different counter field and different resource fields verify
identically because their token strings coincide. -/
theorem verifyHashCash_token_only_witness :
    verifyHashCash 1 mismatchedTokenPacket =
      verifyHashCash 1 { mismatchedTokenPacket with
        sender := "(z)%(q.net)"
        meta := { mismatchedTokenPacket.meta with
          hashcashToken := { token := "1:1:7:(c)%(y.com):(d)%(z.org):7::6:", counter := 0 } } } :=
  verifyHashCash_token_only.2.1 1 _ _ rfl

/-- C3: an encrypted packet always passes verifyIntegrity whatever its
content and stored hash; an unencrypted packet passes iff the SHA-256 hex
digest of the JSON serialization of its content equals the stored
messageHash, so replacing the content of a passing unencrypted packet by
any content whose serialization hashes differently makes it fail. -/
theorem verifyIntegrity_spec :
    (∀ p : Packet, p.meta.encrypted = true → verifyMessageIntegrity p = true) ∧
    (∀ p : Packet, p.meta.encrypted = false →
      (verifyMessageIntegrity p = true ↔
        generateSHA256 (jsonStringifyContent p.content) = p.verification.messageHash)) ∧
    (∀ (p : Packet) (c : Content), p.meta.encrypted = false →
      generateSHA256 (jsonStringifyContent c) ≠
        generateSHA256 (jsonStringifyContent p.content) →
      verifyMessageIntegrity p = true →
      verifyMessageIntegrity { p with content := c } = false) := by
  refine ⟨fun p hp => ?_, fun p hp => ?_, fun p c hp hne hv => ?_⟩
  · simp [verifyMessageIntegrity, hp]
  · simp [verifyMessageIntegrity, hp]
  · have hhash := ((by simp [verifyMessageIntegrity, hp] :
      (verifyMessageIntegrity p = true ↔
        generateSHA256 (jsonStringifyContent p.content) = p.verification.messageHash))).mp hv
    simp only [verifyMessageIntegrity, hp, if_false, Bool.ite_eq_false_distrib]
    simp only [beq_eq_false_iff_ne, ne_eq]
    intro hcontra
    exact hne (hcontra.trans hhash.symm)

/-- An unencrypted packet with matching stored hash, for the C3 witness. -/
def intactPacket : Packet :=
  { meta := {
      type := "SEND"
      messageId := "id2"
      timestamp := 5
      hashcashToken := { token := "x", counter := 0 }
      encrypted := false
      signed := false
      tags := [] }
    sender := "(a)%(x.com)"
    recipient := "(b)%(x.com)"
    content := .plain "Hi" "Yo"
    verification := { messageHash := generateSHA256 (jsonStringifyContent (.plain "Hi" "Yo")) } }

/-- Witness for C3: the intact packet verifies; replacing its body by "Ya"
(whose serialization hashes differently) makes verification fail; and the
same packet marked encrypted verifies unconditionally. -/
theorem verifyIntegrity_spec_witness :
    verifyMessageIntegrity { intactPacket with
      meta := { intactPacket.meta with encrypted := true } } = true ∧
    verifyMessageIntegrity { intactPacket with content := .plain "Hi" "Ya" } = false := by
  refine ⟨verifyIntegrity_spec.1 _ rfl, verifyIntegrity_spec.2.2 intactPacket (.plain "Hi" "Ya") rfl ?_ ?_⟩
  · decide
  · decide

/-- C4: whenever createMessagePacket returns a packet (valid addresses, the
hashcash search succeeded, no encryption applied so the content stays
plaintext), the stored messageHash is the SHA-256 of the JSON serialization
of the subject/body object in that field order, and the packet passes
verifyIntegrity. -/
theorem buildPacket_integrity (difficulty fuel : Nat)
    (sender recipient subject body ptype : String) (optTags : TagsInput)
    (timestamp : Nat) (messageId : String) (p : Packet)
    (h : createMessagePacket difficulty fuel sender recipient subject body ptype
          optTags timestamp messageId = some p) :
    p.content = Content.plain subject body ∧
    p.meta.encrypted = false ∧
    p.verification.messageHash =
      generateSHA256 (jsonStringifyContent (Content.plain subject body)) ∧
    verifyMessageIntegrity p = true := by
  unfold createMessagePacket at h
  by_cases hv : (!validateEmailFormat sender || !validateEmailFormat recipient) = true
  · simp [hv] at h
  · simp only [Bool.not_eq_true] at hv
    simp only [hv, Bool.false_eq_true, if_false] at h
    revert h
    cases hg : generateHashCashAux difficulty sender recipient timestamp fuel 0 with
    | none => intro h; simp at h
    | some tok =>
      intro h
      simp only [Option.some.injEq] at h
      subst h
      refine ⟨rfl, rfl, rfl, ?_⟩
      simp [verifyMessageIntegrity]

/-- The packet built by the C4 witness call below. -/
def builtPacket : Packet :=
  { meta := {
      type := "SEND"
      messageId := "id0"
      timestamp := 5
      hashcashToken := { token := hashcashTokenString 0 "(a)%(x.com)" "(b)%(x.com)" 5 0, counter := 0 }
      encrypted := false
      signed := false
      tags := [] }
    sender := "(a)%(x.com)"
    recipient := "(b)%(x.com)"
    content := .plain "Hi" "Yo"
    verification := { messageHash := generateSHA256 (jsonStringifyContent (.plain "Hi" "Yo")) } }

/-- Witness for C4 at difficulty 0 (the zero-difficulty search accepts
counter 0 at once): the built packet passes verifyIntegrity. -/
theorem buildPacket_integrity_witness :
    verifyMessageIntegrity builtPacket = true :=
  (buildPacket_integrity 0 1 "(a)%(x.com)" "(b)%(x.com)" "Hi" "Yo" "SEND"
    (.arr []) 5 "id0" builtPacket (by decide)).2.2.2

/-- C5: processPacket checks integrity first and HashCash second, short-
circuiting with the tagged error: an integrity failure yields the integrity
error whatever the HashCash token would do, an integrity pass followed by a
HashCash failure yields the anti-spam error, and in either case the SEND
handler answers with that error and leaves every mailbox unchanged. -/
theorem processPacket_order (difficulty : Nat) (m : Mailboxes) (p : Packet) :
    (verifyMessageIntegrity p = false →
      processPacket difficulty p = .failure "Message integrity check failed" ∧
      handleSendMail difficulty m p = (m, .errorResp "Message integrity check failed")) ∧
    (verifyMessageIntegrity p = true → verifyHashCash difficulty p = false →
      processPacket difficulty p = .failure "HashCash verification failed - potential spam" ∧
      handleSendMail difficulty m p =
        (m, .errorResp "HashCash verification failed - potential spam")) := by
  constructor
  · intro hi
    have hp : processPacket difficulty p = .failure "Message integrity check failed" := by
      simp [processPacket, hi]
    exact ⟨hp, by simp [handleSendMail, hp]⟩
  · intro hi hh
    have hp : processPacket difficulty p =
        .failure "HashCash verification failed - potential spam" := by
      simp [processPacket, hi, hh]
    exact ⟨hp, by simp [handleSendMail, hp]⟩

/-- Witness for C5: a packet with a corrupted stored hash triggers the
integrity error, and the intact packet (whose token "x" does not hash to a
leading zero) triggers the anti-spam error at difficulty 1; the mailbox
store [] is unchanged in both cases. -/
theorem processPacket_order_witness :
    (handleSendMail 1 [] { intactPacket with verification := { messageHash := "wrong" } } =
      ([], .errorResp "Message integrity check failed")) ∧
    (handleSendMail 1 [] intactPacket =
      ([], .errorResp "HashCash verification failed - potential spam")) :=
  ⟨((processPacket_order 1 []
      { intactPacket with verification := { messageHash := "wrong" } }).1 (by decide)).2,
   ((processPacket_order 1 [] intactPacket).2 (by decide) (by decide)).2⟩

/-- C6: for a RECEIVE on a valid address, an absent or empty mailbox
yields the empty response with count 0 and an unchanged store; otherwise
the whole queued list is returned in order with its length, the mailbox
entry is deleted entirely, and an immediate second RECEIVE for the same
address returns the empty list. -/
theorem handleReceiveMail_spec (m : Mailboxes) (email : String)
    (hv : validateEmailFormat email = true) :
    (mboxLookup m email = none → handleReceiveMail m email = (m, .receiveOk [] 0)) ∧
    (mboxLookup m email = some [] → handleReceiveMail m email = (m, .receiveOk [] 0)) ∧
    (∀ msgs, mboxLookup m email = some msgs → msgs ≠ [] →
      handleReceiveMail m email = (mboxDelete m email, .receiveOk msgs msgs.length) ∧
      mboxLookup (mboxDelete m email) email = none ∧
      handleReceiveMail (mboxDelete m email) email = (mboxDelete m email, .receiveOk [] 0)) := by
  refine ⟨fun h => ?_, fun h => ?_, fun msgs h hne => ?_⟩
  · simp [handleReceiveMail, hv, h]
  · simp [handleReceiveMail, hv, h]
  · have hlen : (msgs.length == 0) = false := by
      simp only [beq_eq_false_iff_ne, ne_eq, List.length_eq_zero]
      exact hne
    refine ⟨by simp [handleReceiveMail, hv, h, hlen], mboxLookup_mboxDelete m email, ?_⟩
    simp [handleReceiveMail, hv, mboxLookup_mboxDelete m email]

/-- Witness for C6: a one-message mailbox for (b)%(x.com) is drained in
full and the immediate second RECEIVE returns the empty list. -/
theorem handleReceiveMail_spec_witness :
    handleReceiveMail [("(b)%(x.com)", [intactPacket])] "(b)%(x.com)" =
      ([], .receiveOk [intactPacket] 1) ∧
    handleReceiveMail [] "(b)%(x.com)" = ([], .receiveOk [] 0) := by
  have h := (handleReceiveMail_spec [("(b)%(x.com)", [intactPacket])] "(b)%(x.com)"
    (by decide)).2.2 [intactPacket] (by decide) (by simp)
  exact ⟨h.1.trans (by decide), h.2.2.trans (by decide)⟩

/-- The matching predicate in the words of the specification: a message
matches iff for every category in the filter it has at least one tag in
common with the filter values of that category (OR within a category, AND
across categories). -/
def matchesTagFiltersSpec (tagFilters : List (String × List String))
    (message : Packet) : Bool :=
  tagFilters.all (fun p =>
    p.2.any (fun tag => ((assocLookup message.meta.tags p.1).getD []).contains tag))

theorem listAllCongr {α : Type} {l : List α} {f g : α → Bool}
    (h : ∀ x ∈ l, f x = g x) : l.all f = l.all g := by
  induction l with
  | nil => rfl
  | cons hd tl ih =>
    simp only [List.all_cons]
    rw [h hd (List.mem_cons_self hd tl), ih (fun x hx => h x (List.mem_cons_of_mem hd hx))]

theorem messageMatchesFilters_eq_spec (tagFilters : List (String × List String))
    (p : Packet) (hne : tagFilters ≠ []) :
    messageMatchesFilters tagFilters p = matchesTagFiltersSpec tagFilters p := by
  unfold messageMatchesFilters matchesTagFiltersSpec
  by_cases ht : p.meta.tags.isEmpty
  · have htags : p.meta.tags = [] := by simpa [List.isEmpty_iff] using ht
    cases tagFilters with
    | nil => exact absurd rfl hne
    | cons hd tl => simp [ht, htags, assocLookup]
  · simp only [ht, Bool.false_eq_true, if_false]
    apply listAllCongr
    intro x _
    by_cases hc : (x.2.length > 0 && ((assocLookup p.meta.tags x.1).getD []).length == 0) = true
    · have hmt : (assocLookup p.meta.tags x.1).getD [] = [] := by
        have := (Bool.and_eq_true _ _).mp hc
        simpa [List.length_eq_zero] using this.2
      simp [hc, hmt]
    · simp only [Bool.not_eq_true] at hc
      simp [hc]

/-- C7: with a non-empty filter mapping, filterMessagesByTags keeps exactly
the messages satisfying the AND-across-categories / OR-within-category
matching predicate; a message with no tags satisfies no non-empty filter;
an empty filter mapping returns the input unchanged. -/
theorem filterMessagesByTags_spec (messages : List Packet)
    (tagFilters : List (String × List String)) :
    (tagFilters = [] → filterMessagesByTags messages tagFilters = messages) ∧
    (tagFilters ≠ [] →
      filterMessagesByTags messages tagFilters =
        messages.filter (matchesTagFiltersSpec tagFilters) ∧
      ∀ p : Packet, p.meta.tags = [] → matchesTagFiltersSpec tagFilters p = false) := by
  constructor
  · intro h; simp [filterMessagesByTags, h]
  · intro hne
    constructor
    · have hE : tagFilters.isEmpty = false := by
        cases tagFilters with
        | nil => exact absurd rfl hne
        | cons hd tl => rfl
      simp only [filterMessagesByTags, hE, Bool.false_eq_true, if_false]
      exact List.filter_congr (fun p _ => messageMatchesFilters_eq_spec tagFilters p hne)
    · intro p hp
      cases tagFilters with
      | nil => exact absurd rfl hne
      | cons hd tl => simp [matchesTagFiltersSpec, hp, assocLookup]

/-- A packet tagged category:[promotion], for the C7 and C10 witnesses. -/
def promoPacket : Packet :=
  { intactPacket with
    meta := { intactPacket.meta with
      messageId := "promo"
      tags := [("category", ["promotion"])] } }

/-- Witness for C7: against the filter category:[promotion, coupon], the
promotion-tagged message is kept and the untagged message is dropped. -/
theorem filterMessagesByTags_spec_witness :
    filterMessagesByTags [promoPacket, intactPacket]
      [("category", ["promotion", "coupon"])] = [promoPacket] ∧
    matchesTagFiltersSpec [("category", ["promotion", "coupon"])] intactPacket = false := by
  have h := (filterMessagesByTags_spec [promoPacket, intactPacket]
    [("category", ["promotion", "coupon"])]).2 (by decide)
  exact ⟨h.1.trans (by decide), h.2 intactPacket rfl⟩

/-- C8: handling a CHECK request never mutates the mailbox store, so
repeating the same CHECK yields the identical response. -/
theorem handleCheckMail_frame (m : Mailboxes) (email : String)
    (tagFilters : Option (List (String × List String))) :
    (handleCheckMail m email tagFilters).1 = m ∧
    handleCheckMail (handleCheckMail m email tagFilters).1 email tagFilters =
      handleCheckMail m email tagFilters := by
  have h1 : (handleCheckMail m email tagFilters).1 = m := by
    unfold handleCheckMail
    split
    · rfl
    · rfl
  exact ⟨h1, by rw [h1]⟩

/-- A non-error REQUEST_PUBLIC_KEY response delivering an armored key, for
the C9 counterexample and witness. -/
def pkResponse : ClientResponse :=
  { status := "OK", message := "", publicKey := some "armored-key",
    messages := none, tagFilters := none }

/-- C9 counterexample: with PGP support disabled (the default client
configuration), a non-ERROR response settles the oldest REQUEST_PUBLIC_KEY
tracker by rejection — importPublicKey throws and the .catch of the branch
propagates the error — refuting the original claim that a response whose
status is not ERROR always resolves the settled tracker. -/
theorem handleResponse_nonerror_rejects :
    pkResponse.status ≠ "ERROR" ∧
    (handleResponse false none [⟨"REQUEST_PUBLIC_KEY", 11⟩] pkResponse).settled =
      some (⟨"REQUEST_PUBLIC_KEY", 11⟩, .rejected "PGP support is not enabled") ∧
    ¬∃ r, (handleResponse false none [⟨"REQUEST_PUBLIC_KEY", 11⟩] pkResponse).settled =
      some (⟨"REQUEST_PUBLIC_KEY", 11⟩, .resolved r) := by
  refine ⟨by decide, by decide, ?_⟩
  rintro ⟨r, hr⟩
  have h2 : (handleResponse false none [⟨"REQUEST_PUBLIC_KEY", 11⟩] pkResponse).settled =
      some (⟨"REQUEST_PUBLIC_KEY", 11⟩, .rejected "PGP support is not enabled") := by decide
  rw [h2] at hr
  simp at hr

/-- C9 (amended): on any non-welcome response and a non-empty
outstanding-request table, the handler settles exactly the oldest entry —
clearing its timeout, removing it from the table, and leaving every other
entry untouched, with no condition relating the action of that entry to the
response — rejecting when the status is ERROR; when the status is not
ERROR it resolves the entry, except that an oldest REQUEST_PUBLIC_KEY entry
with a truthy delivered publicKey resolves only if the key import succeeds
and is rejected with the import error otherwise (in particular with the
PGP-support-disabled error when usePGP is false). -/
theorem handleResponse_spec (usePGP : Bool) (readKeyError : Option String)
    (entry : PendingEntry) (rest : List PendingEntry) (response : ClientResponse) :
    (handleResponse usePGP readKeyError (entry :: rest) response).remaining = rest ∧
    (handleResponse usePGP readKeyError (entry :: rest) response).clearedTimeouts =
      [entry.timeoutId] ∧
    (response.status = "ERROR" →
      (handleResponse usePGP readKeyError (entry :: rest) response).settled =
        some (entry, .rejected response.message)) ∧
    (response.status ≠ "ERROR" →
      ((entry.action == "REQUEST_PUBLIC_KEY" && strFieldTruthy response.publicKey) = false →
        ∃ r, (handleResponse usePGP readKeyError (entry :: rest) response).settled =
          some (entry, .resolved r)) ∧
      ((entry.action == "REQUEST_PUBLIC_KEY" && strFieldTruthy response.publicKey) = true →
        (importPublicKeyOutcome usePGP readKeyError = .ok () →
          (handleResponse usePGP readKeyError (entry :: rest) response).settled =
            some (entry, .resolved response)) ∧
        ∀ e, importPublicKeyOutcome usePGP readKeyError = .error e →
          (handleResponse usePGP readKeyError (entry :: rest) response).settled =
            some (entry, .rejected e))) := by
  refine ⟨rfl, rfl, fun h => ?_, fun h => ⟨fun h1 => ?_, fun h1 => ⟨fun hok => ?_, fun e herr => ?_⟩⟩⟩
  · simp [handleResponse, h]
  · have hs : (response.status == "ERROR") = false := by
      simpa [beq_eq_false_iff_ne] using h
    unfold handleResponse
    simp only [hs, Bool.false_eq_true, if_false, h1]
    rcases ha : (entry.action == "RECEIVE_FILTERED") with _ | _
    · exact ⟨response, by simp⟩
    · cases hm : response.messages with
      | none => exact ⟨response, by simp⟩
      | some msgs =>
        cases hf : response.tagFilters with
        | none => exact ⟨response, by simp⟩
        | some fs =>
          exact ⟨{ response with messages := some (filterMessagesByTags msgs fs) },
            by simp [hm, hf]⟩
  · have hs : (response.status == "ERROR") = false := by
      simpa [beq_eq_false_iff_ne] using h
    unfold handleResponse
    simp [hs, h1, hok]
  · have hs : (response.status == "ERROR") = false := by
      simpa [beq_eq_false_iff_ne] using h
    unfold handleResponse
    simp [hs, h1, herr]

/-- Witness for C9: with PGP enabled and a parsing key, the oldest
REQUEST_PUBLIC_KEY tracker resolves on the non-error key response and the
younger CHECK tracker stays queued; with PGP disabled the same response
rejects that tracker with the import error. -/
theorem handleResponse_spec_witness :
    (handleResponse true none [⟨"REQUEST_PUBLIC_KEY", 11⟩, ⟨"CHECK", 22⟩] pkResponse).settled =
      some (⟨"REQUEST_PUBLIC_KEY", 11⟩, .resolved pkResponse) ∧
    (handleResponse true none [⟨"REQUEST_PUBLIC_KEY", 11⟩, ⟨"CHECK", 22⟩] pkResponse).remaining =
      [⟨"CHECK", 22⟩] ∧
    (handleResponse false none [⟨"REQUEST_PUBLIC_KEY", 11⟩] pkResponse).settled =
      some (⟨"REQUEST_PUBLIC_KEY", 11⟩, .rejected "PGP support is not enabled") := by
  have h1 := handleResponse_spec true none ⟨"REQUEST_PUBLIC_KEY", 11⟩ [⟨"CHECK", 22⟩] pkResponse
  have h2 := handleResponse_spec false none ⟨"REQUEST_PUBLIC_KEY", 11⟩ [] pkResponse
  exact ⟨((h1.2.2.2 (by decide)).2 (by decide)).1 rfl, h1.1,
    ((h2.2.2.2 (by decide)).2 (by decide)).2 "PGP support is not enabled" rfl⟩

/-- C10: a RECEIVE_FILTERED on a valid address with a non-empty mailbox but
an absent or category-less tagFilters object returns every queued message
(tagged or not) and deletes the mailbox entry entirely — the store and
message list agree with what a plain RECEIVE would produce. -/
theorem handleReceiveFilteredMail_noFilters (m : Mailboxes) (email : String)
    (tagFilters : Option (List (String × List String)))
    (hv : validateEmailFormat email = true)
    (hf : tagFilters = none ∨ tagFilters = some [])
    (msgs : List Packet) (hm : mboxLookup m email = some msgs) (hne : msgs ≠ []) :
    handleReceiveFilteredMail m email tagFilters =
      (mboxDelete m email, .receiveFilteredOk msgs msgs.length tagFilters) ∧
    handleReceiveMail m email = (mboxDelete m email, .receiveOk msgs msgs.length) := by
  have hlen : (msgs.length == 0) = false := by
    simp only [beq_eq_false_iff_ne, ne_eq, List.length_eq_zero]
    exact hne
  constructor
  · rcases hf with hf | hf
    · subst hf; simp [handleReceiveFilteredMail, hv, hm, hlen]
    · subst hf; simp [handleReceiveFilteredMail, hv, hm, hlen]
  · simp [handleReceiveMail, hv, hm, hlen]

/-- Witness for C10: a mailbox holding a tagged and an untagged message is
fully drained by RECEIVE_FILTERED with an empty tagFilters object, exactly
as RECEIVE would drain it. -/
theorem handleReceiveFilteredMail_noFilters_witness :
    handleReceiveFilteredMail [("(b)%(x.com)", [promoPacket, intactPacket])]
      "(b)%(x.com)" (some []) =
      ([], .receiveFilteredOk [promoPacket, intactPacket] 2 (some [])) ∧
    handleReceiveMail [("(b)%(x.com)", [promoPacket, intactPacket])] "(b)%(x.com)" =
      ([], .receiveOk [promoPacket, intactPacket] 2) := by
  have h := handleReceiveFilteredMail_noFilters
    [("(b)%(x.com)", [promoPacket, intactPacket])] "(b)%(x.com)" (some [])
    (by decide) (Or.inr rfl) [promoPacket, intactPacket] (by decide) (by simp)
  exact ⟨h.1.trans (by decide), h.2.trans (by decide)⟩

end MMTP
